import Mathlib

/-
Verification development for the distaff zk-VM core.

The repository exposes four source files: lib.rs (the public execute/verify
API and global constants), main.rs (the CLI harness), tests/mod.rs (the
integration tests) and stark/constraints/stack.rs (the stack transition
constraint evaluator).  The processor, STARK engine, field and hasher
modules are not part of the exposed sources; where a claim depends on them
they are modelled from the specification, and each such definition carries
a doc comment starting with "Modelled from the spec:".
-/

namespace Distaff

/-- Modelled from the spec: the prime modulus of the 128-bit field used by
math::field (the field module is not in the exposed sources);
p = 2^128 - 45 * 2^40 + 1. -/
def p : Nat := 2 ^ 128 - 45 * 2 ^ 40 + 1

/-- Modelled from the spec: math::field addition modulo p. -/
def fadd (a b : Nat) : Nat := (a + b) % p

/-- Modelled from the spec: math::field subtraction modulo p. -/
def fsub (a b : Nat) : Nat := (a + (p - b % p)) % p

/-- Modelled from the spec: math::field multiplication modulo p. -/
def fmul (a b : Nat) : Nat := (a * b) % p

-- GLOBAL CONSTANTS (from src/src/lib.rs)

/-- Maximum number of outputs execute may return (lib.rs). -/
def MAX_OUTPUTS : Nat := 8

/-- Maximum number of public inputs (lib.rs). -/
def MAX_PUBLIC_INPUTS : Nat := 8

/-- Minimum tracked stack depth of the constraint table (lib.rs). -/
def MIN_STACK_DEPTH : Nat := 8

/-- Maximum stack depth (lib.rs). -/
def MAX_STACK_DEPTH : Nat := 32

-- RESCUE SPONGE STATE

/-- Modelled from the spec: the 6-lane Rescue sponge state of the hasher
(utils::hasher is not in the exposed sources): four rate lanes r0..r3 and
two capacity lanes c0, c1. -/
structure RescueState where
  r0 : Nat
  r1 : Nat
  r2 : Nat
  r3 : Nat
  c0 : Nat
  c1 : Nat

/-- Modelled from the spec: the full Rescue permutation is 10 applications
of the round function.  The round constants and MDS matrix are not in the
exposed sources, so the round function is a parameter throughout. -/
def permute (round : RescueState → RescueState) (s : RescueState) : RescueState :=
  round (round (round (round (round (round (round (round (round (round s)))))))))

/-- Modelled from the spec: utils::hasher digest.  The four input elements
are absorbed into the rate lanes, the capacity lanes start at zero, the
permutation is applied, and the digest is the pair (r0, r1). -/
def digest (round : RescueState → RescueState) (values : List Nat) : List Nat :=
  let s0 : RescueState :=
    { r0 := values.getD 0 0, r1 := values.getD 1 0
      r2 := values.getD 2 0, r3 := values.getD 3 0
      c0 := 0, c1 := 0 }
  let s := permute round s0
  [s.r0, s.r1]

-- PROCESSOR MODEL

/-- Modelled from the spec: the opcodes exercised by the exposed tests
(processor::OpCode is not in the exposed sources).  The PUSH immediate is
supplied by the PushValue hint, so the constructor carries it. -/
inductive Op where
  | noop
  | push (v : Nat)
  | read
  | read2
  | swap
  | dup2
  | drop
  | add
  | rescr
deriving DecidableEq, Repr

/-- Modelled from the spec: a program.  The exposed tests build programs
from a single Span procedure, so a program is its opcode list (the
programs module with the block tree is not in the exposed sources). -/
structure Program where
  ops : List Op

/-- Program inputs: the public stack initialisation and the two secret
input tapes, in the argument order of ProgramInputs::new (spec section 6). -/
structure ProgramInputs where
  publicInputs : List Nat
  secretA : List Nat
  secretB : List Nat

/-- Modelled from the spec: simulator state, holding the user stack and
the two secret input tapes. -/
structure MachState where
  stack : List Nat
  tapeA : List Nat
  tapeB : List Nat

/-- Modelled from the spec: one execution step of the processor.  READ
consumes one element of tape a; READ2 consumes one element of each tape
and leaves the tape-b element on top; RESCR applies one Rescue round to
the top six stack slots, with the capacity lanes at the top of the stack
and the rate lanes below in reverse order. -/
def step (round : RescueState → RescueState) (st : MachState) (op : Op) :
    Except String MachState :=
  match op with
  | .noop => .ok st
  | .push v => .ok { st with stack := v :: st.stack }
  | .read =>
    match st.tapeA with
    | [] => .error "TapeExhausted"
    | a :: ta => .ok { st with stack := a :: st.stack, tapeA := ta }
  | .read2 =>
    match st.tapeA, st.tapeB with
    | a :: ta, b :: tb =>
      .ok { st with stack := b :: a :: st.stack, tapeA := ta, tapeB := tb }
    | _, _ => .error "TapeExhausted"
  | .swap =>
    match st.stack with
    | x :: y :: rest => .ok { st with stack := y :: x :: rest }
    | _ => .error "StackUnderflow"
  | .dup2 =>
    match st.stack with
    | x :: y :: rest => .ok { st with stack := x :: y :: x :: y :: rest }
    | _ => .error "StackUnderflow"
  | .drop =>
    match st.stack with
    | _ :: rest => .ok { st with stack := rest }
    | _ => .error "StackUnderflow"
  | .add =>
    match st.stack with
    | x :: y :: rest => .ok { st with stack := fadd x y :: rest }
    | _ => .error "StackUnderflow"
  | .rescr =>
    let t := fun i => st.stack.getD i 0
    let s := round { c0 := t 0, c1 := t 1, r3 := t 2, r2 := t 3, r1 := t 4, r0 := t 5 }
    .ok { st with stack := [s.c0, s.c1, s.r3, s.r2, s.r1, s.r0] ++ st.stack.drop 6 }

/-- Modelled from the spec: processor::execute runs the opcode stream over
the initial state built from the program inputs. -/
def run (round : RescueState → RescueState) (ops : List Op) (st : MachState) :
    Except String MachState :=
  ops.foldlM (step round) st

-- PROGRAM HASH

/-- Modelled from the spec: the 5-bit opcode values absorbed by the
operation sponge (processor::opcodes is not in the exposed sources, so the
values are chosen distinct). -/
def opVal : Op → Nat
  | .noop => 0
  | .push _ => 3
  | .read => 10
  | .read2 => 11
  | .swap => 12
  | .dup2 => 13
  | .drop => 6
  | .add => 7
  | .rescr => 14

/-- Modelled from the spec: the per-step program-hash accumulation: the
opcode value is absorbed into the first rate lane and one Rescue round is
applied. -/
def accumulateOp (round : RescueState → RescueState) (s : RescueState) (op : Op) :
    RescueState :=
  round { s with r0 := fadd s.r0 (opVal op) }

/-- Big-endian byte decomposition of a field element into 16 bytes
(spec section 6: the program hash is the big-endian concatenation of two
field elements). -/
def toBytesBE (x : Nat) : List Nat :=
  (List.range 16).map (fun i => x / 256 ^ (15 - i) % 256)

/-- Modelled from the spec: the 32-byte program hash, obtained by
accumulating the opcode stream into the sponge and taking the big-endian
bytes of the two digest lanes.  The block-tree structure is collapsed to
the single-Span case exercised by the exposed tests. -/
def hashBytes (round : RescueState → RescueState) (program : Program) : List Nat :=
  let s := program.ops.foldl (accumulateOp round)
    { r0 := 0, r1 := 0, r2 := 0, r3 := 0, c0 := 0, c1 := 0 }
  toBytesBE s.r0 ++ toBytesBE s.r1

-- PROOF OBJECT AND VERIFIER

/-- Modelled from the spec: the StarkProof object (the stark module is not
in the exposed sources).  The cryptographic content - Merkle roots, FRI
layers, DEEP queries - is abstracted to the statement the transcript
binds: the committed program hash, public inputs and outputs. -/
structure StarkProof where
  programHash : List Nat
  publicInputs : List Nat
  outputs : List Nat

/-- Modelled from the spec: proof options (spec section 4.6). -/
structure ProofOptions where
  extensionFactor : Nat
  numQueries : Nat
  grindingFactor : Nat

/-- Modelled from the spec: ProofOptions::default. -/
def defaultOptions : ProofOptions :=
  { extensionFactor := 16, numQueries := 28, grindingFactor := 16 }

/-- The execute entry point of lib.rs.  The num_outputs guard and the
extraction of the top num_outputs stack slots (zero-extended) are from the
source; stark::prove is modelled from the spec as producing the proof
object that commits to the program hash, public inputs and outputs, and
the assert and processor failures are modelled as errors. -/
def execute (round : RescueState → RescueState) (program : Program)
    (inputs : ProgramInputs) (numOutputs : Nat) (options : ProofOptions) :
    Except String (List Nat × StarkProof) :=
  if numOutputs > MAX_OUTPUTS then
    .error ("cannot produce more than " ++ toString MAX_OUTPUTS ++
      " outputs, but requested " ++ toString numOutputs)
  else
    match run round program.ops
        { stack := inputs.publicInputs, tapeA := inputs.secretA, tapeB := inputs.secretB } with
    | .error e => .error e
    | .ok final =>
      let outputs := (List.range numOutputs).map (fun i => final.stack.getD i 0)
      .ok (outputs,
        { programHash := hashBytes round program
          publicInputs := inputs.publicInputs
          outputs := outputs })

/-- The verify entry point of lib.rs.  Modelled from the spec: stark::verify
reconstructs the transcript and rejects with the canonical low-degree
message (the tests show the mismatch surfaces at FRI layer 0) when the
public inputs or outputs do not match the committed ones, and with the
canonical execution-path message when the program hash does not match. -/
def verify (programHash : List Nat) (publicInputs : List Nat) (outputs : List Nat)
    (proof : StarkProof) : Except String Bool :=
  if proof.publicInputs = publicInputs ∧ proof.outputs = outputs then
    if proof.programHash = programHash then
      .ok true
    else
      .error "verification of program execution path failed"
  else
    .error "verification of low-degree proof failed: evaluations did not match column value at depth 0"

-- STACK TRANSITION CONSTRAINTS (from src/src/stark/constraints/stack.rs)

/-- Modelled from the spec: a trace row as seen by the stack constraint
evaluator (stark::TraceState is not in the exposed sources): the
user-stack registers, zero beyond the tracked depth, and the op_code
register. -/
structure TraceState where
  stack : Nat → Nat
  opCode : Nat

namespace opcodes

/-- Modelled from the spec: indices of the opcodes into the 32-entry
op_flags table (processor::opcodes is not in the exposed sources, so the
indices are chosen distinct). -/
def NOOP : Nat := 0

def PULL1 : Nat := 1

def PULL2 : Nat := 2

def PUSH : Nat := 3

def DUP0 : Nat := 4

def DUP1 : Nat := 5

def DROP : Nat := 6

def ADD : Nat := 7

def SUB : Nat := 8

def MUL : Nat := 9

end opcodes

/-
The Rust evaluator mutates a buffer expected_stack of length
stack_depth = max(table.len(), MIN_STACK_DEPTH).  Each helper below is the
functional translation of the corresponding Rust function acting on that
buffer: the buffer is a function from slot index to value, the buffer
length is the explicit argument nlen, and a slice such as next[2..] or
next[0..n] becomes an index guard on the update.
-/

/-- mul_acc of stack.rs over the whole buffer: a[i] = add(a[i], mul(b[i], c))
for i below the buffer length. -/
def mul_acc (a : Nat → Nat) (alen : Nat) (b : Nat → Nat) (c : Nat) : Nat → Nat :=
  fun i => if i < alen then fadd (a i) (fmul (b i) c) else a i

/-- op_pull1 of stack.rs: slots 0 and 1 exchanged, slots from 2 copied. -/
def op_pull1 (next : Nat → Nat) (nlen : Nat) (current : Nat → Nat) (op_flag : Nat) :
    Nat → Nat :=
  fun i =>
    if i = 0 then fadd (next 0) (fmul (current 1) op_flag)
    else if i = 1 then fadd (next 1) (fmul (current 0) op_flag)
    else if i < nlen then fadd (next i) (fmul (current i) op_flag)
    else next i

/-- op_pull2 of stack.rs: slot 0 takes current[2], slots 1 and 2 take
current[0] and current[1], slots from 3 copied. -/
def op_pull2 (next : Nat → Nat) (nlen : Nat) (current : Nat → Nat) (op_flag : Nat) :
    Nat → Nat :=
  fun i =>
    if i = 0 then fadd (next 0) (fmul (current 2) op_flag)
    else if i = 1 then fadd (next 1) (fmul (current 0) op_flag)
    else if i = 2 then fadd (next 2) (fmul (current 1) op_flag)
    else if i < nlen then fadd (next i) (fmul (current i) op_flag)
    else next i

/-- op_push of stack.rs: slot 0 takes the op_code value, slots from 1 take
current shifted down by one. -/
def op_push (next : Nat → Nat) (nlen : Nat) (current : Nat → Nat) (op_code : Nat)
    (op_flag : Nat) : Nat → Nat :=
  fun i =>
    if i = 0 then fadd (next 0) (fmul op_code op_flag)
    else if i < nlen then fadd (next i) (fmul (current (i - 1)) op_flag)
    else next i

/-- op_dup0 of stack.rs: slot 0 duplicates current[0], slots from 1 take
current shifted down by one. -/
def op_dup0 (next : Nat → Nat) (nlen : Nat) (current : Nat → Nat) (op_flag : Nat) :
    Nat → Nat :=
  fun i =>
    if i = 0 then fadd (next 0) (fmul (current 0) op_flag)
    else if i < nlen then fadd (next i) (fmul (current (i - 1)) op_flag)
    else next i

/-- op_dup1 of stack.rs: slot 0 duplicates current[1], slots from 1 take
current shifted down by one. -/
def op_dup1 (next : Nat → Nat) (nlen : Nat) (current : Nat → Nat) (op_flag : Nat) :
    Nat → Nat :=
  fun i =>
    if i = 0 then fadd (next 0) (fmul (current 1) op_flag)
    else if i < nlen then fadd (next i) (fmul (current (i - 1)) op_flag)
    else next i

/-- op_drop of stack.rs: slots below the last take current shifted up by
one; the last slot receives no contribution. -/
def op_drop (next : Nat → Nat) (nlen : Nat) (current : Nat → Nat) (op_flag : Nat) :
    Nat → Nat :=
  fun i =>
    if i < nlen - 1 then fadd (next i) (fmul (current (i + 1)) op_flag)
    else next i

/-- op_add of stack.rs: slot 0 takes current[0] + current[1], middle slots
take current shifted up by one, the last slot receives no contribution. -/
def op_add (next : Nat → Nat) (nlen : Nat) (current : Nat → Nat) (op_flag : Nat) :
    Nat → Nat :=
  fun i =>
    if i = 0 then fadd (next 0) (fmul (fadd (current 0) (current 1)) op_flag)
    else if i < nlen - 1 then fadd (next i) (fmul (current (i + 1)) op_flag)
    else next i

/-- op_sub of stack.rs: slot 0 takes current[1] - current[0], middle slots
take current shifted up by one, the last slot receives no contribution. -/
def op_sub (next : Nat → Nat) (nlen : Nat) (current : Nat → Nat) (op_flag : Nat) :
    Nat → Nat :=
  fun i =>
    if i = 0 then fadd (next 0) (fmul (fsub (current 1) (current 0)) op_flag)
    else if i < nlen - 1 then fadd (next i) (fmul (current (i + 1)) op_flag)
    else next i

/-- op_mul of stack.rs: slot 0 takes current[1] * current[0], middle slots
take current shifted up by one, the last slot receives no contribution. -/
def op_mul (next : Nat → Nat) (nlen : Nat) (current : Nat → Nat) (op_flag : Nat) :
    Nat → Nat :=
  fun i =>
    if i = 0 then fadd (next 0) (fmul (fmul (current 1) (current 0)) op_flag)
    else if i < nlen - 1 then fadd (next i) (fmul (current (i + 1)) op_flag)
    else next i

/-- The expected_stack buffer built by evaluate of stack.rs: starting from
zeros of length max(table.len(), MIN_STACK_DEPTH), the ten opcode
contributions are accumulated in source order; the PUSH contribution reads
the op_code register of the NEXT trace row. -/
def expected_stack (current next : TraceState) (op_flags : Nat → Nat)
    (tableLen : Nat) : Nat → Nat :=
  let stack_depth := max tableLen MIN_STACK_DEPTH
  let cs := current.stack
  let e0 : Nat → Nat := fun _ => 0
  let e1 := mul_acc e0 stack_depth cs (op_flags opcodes.NOOP)
  let e2 := op_pull1 e1 stack_depth cs (op_flags opcodes.PULL1)
  let e3 := op_pull2 e2 stack_depth cs (op_flags opcodes.PULL2)
  let e4 := op_push e3 stack_depth cs next.opCode (op_flags opcodes.PUSH)
  let e5 := op_dup0 e4 stack_depth cs (op_flags opcodes.DUP0)
  let e6 := op_dup1 e5 stack_depth cs (op_flags opcodes.DUP1)
  let e7 := op_drop e6 stack_depth cs (op_flags opcodes.DROP)
  let e8 := op_add e7 stack_depth cs (op_flags opcodes.ADD)
  let e9 := op_sub e8 stack_depth cs (op_flags opcodes.SUB)
  let e10 := op_mul e9 stack_depth cs (op_flags opcodes.MUL)
  e10

/-- evaluate of stack.rs: for each table row i the residual
sub(next_stack[i], expected_stack[i]) is written at the current step; the
returned list is the column of residuals written for this step. -/
def evaluate (current next : TraceState) (op_flags : Nat → Nat)
    (tableLen : Nat) : List Nat :=
  (List.range tableLen).map
    (fun i => fsub (next.stack i) (expected_stack current next op_flags tableLen i))

-- EFFECT VECTORS AND THE LINEAR COMBINATION

/-- Per-slot effect of NOOP: the current stack unchanged. -/
def eff_noop (cs : Nat → Nat) (depth i : Nat) : Nat :=
  if i < depth then cs i else 0

/-- Per-slot effect of PULL1. -/
def eff_pull1 (cs : Nat → Nat) (depth i : Nat) : Nat :=
  if i = 0 then cs 1
  else if i = 1 then cs 0
  else if i < depth then cs i
  else 0

/-- Per-slot effect of PULL2. -/
def eff_pull2 (cs : Nat → Nat) (depth i : Nat) : Nat :=
  if i = 0 then cs 2
  else if i = 1 then cs 0
  else if i = 2 then cs 1
  else if i < depth then cs i
  else 0

/-- Per-slot effect of PUSH: slot 0 is the op_code of the next row. -/
def eff_push (cs : Nat → Nat) (opc depth i : Nat) : Nat :=
  if i = 0 then opc
  else if i < depth then cs (i - 1)
  else 0

/-- Per-slot effect of DUP0. -/
def eff_dup0 (cs : Nat → Nat) (depth i : Nat) : Nat :=
  if i = 0 then cs 0
  else if i < depth then cs (i - 1)
  else 0

/-- Per-slot effect of DUP1. -/
def eff_dup1 (cs : Nat → Nat) (depth i : Nat) : Nat :=
  if i = 0 then cs 1
  else if i < depth then cs (i - 1)
  else 0

/-- Per-slot effect of DROP: the stack shifted up by one, last slot 0. -/
def eff_drop (cs : Nat → Nat) (depth i : Nat) : Nat :=
  if i < depth - 1 then cs (i + 1) else 0

/-- Per-slot effect of ADD. -/
def eff_add (cs : Nat → Nat) (depth i : Nat) : Nat :=
  if i = 0 then fadd (cs 0) (cs 1)
  else if i < depth - 1 then cs (i + 1)
  else 0

/-- Per-slot effect of SUB. -/
def eff_sub (cs : Nat → Nat) (depth i : Nat) : Nat :=
  if i = 0 then fsub (cs 1) (cs 0)
  else if i < depth - 1 then cs (i + 1)
  else 0

/-- Per-slot effect of MUL. -/
def eff_mul (cs : Nat → Nat) (depth i : Nat) : Nat :=
  if i = 0 then fmul (cs 1) (cs 0)
  else if i < depth - 1 then cs (i + 1)
  else 0

/-- The expected stack value as the linear combination of op_flag-weighted
opcode effects, summed in the source order of evaluate. -/
def expected_lin_comb (current next : TraceState) (op_flags : Nat → Nat)
    (tableLen i : Nat) : Nat :=
  let depth := max tableLen MIN_STACK_DEPTH
  let cs := current.stack
  [ (eff_noop cs depth i, op_flags opcodes.NOOP),
    (eff_pull1 cs depth i, op_flags opcodes.PULL1),
    (eff_pull2 cs depth i, op_flags opcodes.PULL2),
    (eff_push cs next.opCode depth i, op_flags opcodes.PUSH),
    (eff_dup0 cs depth i, op_flags opcodes.DUP0),
    (eff_dup1 cs depth i, op_flags opcodes.DUP1),
    (eff_drop cs depth i, op_flags opcodes.DROP),
    (eff_add cs depth i, op_flags opcodes.ADD),
    (eff_sub cs depth i, op_flags opcodes.SUB),
    (eff_mul cs depth i, op_flags opcodes.MUL) ].foldl
    (fun acc t => fadd acc (fmul t.1 t.2)) 0

/-- The flag vector with a single opcode active. -/
def singleFlag (k : Nat) : Nat → Nat :=
  fun j => if j = k then 1 else 0

-- FIELD LEMMAS

theorem p_pos : 0 < p := by decide

theorem fadd_lt (a b : Nat) : fadd a b < p :=
  Nat.mod_lt _ p_pos

theorem fmul_lt (a b : Nat) : fmul a b < p :=
  Nat.mod_lt _ p_pos

theorem fadd_zero_right {a : Nat} (h : a < p) : fadd a 0 = a := by
  unfold fadd
  simpa using Nat.mod_eq_of_lt h

theorem fmul_zero_right (a : Nat) : fmul a 0 = 0 := by
  simp [fmul]

theorem fmul_one_right (a : Nat) : fmul a 1 = a % p := by
  simp [fmul]

theorem fadd_zero_left (b : Nat) : fadd 0 b = b % p := by
  simp [fadd]

theorem add_p_sub_mod {A r : Nat} (hA : A < p) (hr : r < p) :
    (A + (p - r)) % p = 0 ↔ A = r := by
  rcases Nat.lt_or_ge (A + (p - r)) p with h | h
  · rw [Nat.mod_eq_of_lt h]
    omega
  · rw [Nat.mod_eq_sub_mod h, Nat.mod_eq_of_lt (by omega)]
    omega

/-- The residual recorded by the evaluator is zero exactly when the two
values agree modulo p. -/
theorem fsub_eq_zero_iff (a b : Nat) : fsub a b = 0 ↔ a ≡ b [MOD p] := by
  unfold fsub
  have hb : b % p < p := Nat.mod_lt _ p_pos
  have ha : a % p < p := Nat.mod_lt _ p_pos
  rw [Nat.add_mod]
  rcases Nat.eq_zero_or_pos (b % p) with h0 | h0
  · rw [h0, Nat.sub_zero, Nat.mod_self, Nat.add_zero, Nat.mod_mod_of_dvd a dvd_rfl]
    unfold Nat.ModEq
    rw [h0]
  · rw [Nat.mod_eq_of_lt (show p - b % p < p by omega)]
    exact add_p_sub_mod ha hb

-- LIST HELPERS

theorem range_map_getD (f : Nat → Nat) (n i : Nat) (h : i < n) :
    (((List.range n).map f).getD i 0) = f i := by
  rw [List.getD_eq_getElem?_getD]
  simp [List.getElem?_map, List.getElem?_range, h]

theorem getD_set_self : ∀ (l : List Nat) (k v : Nat), k < l.length →
    (l.set k v).getD k 0 = v
  | [], k, v, h => absurd h (by simp)
  | _ :: _, 0, v, _ => rfl
  | _ :: l, k + 1, v, h => getD_set_self l k v (by simpa using h)

theorem set_ne_of_ne (l : List Nat) (k v : Nat) (hk : k < l.length)
    (hv : v ≠ l.getD k 0) : l.set k v ≠ l := by
  intro h
  apply hv
  rw [← getD_set_self l k v hk, h]

theorem hashBytes_length (round : RescueState → RescueState) (program : Program) :
    (hashBytes round program).length = 32 := by
  simp [hashBytes, toBytesBE]

theorem fmul_zero_left (a : Nat) : fmul 0 a = 0 := by
  simp [fmul]

-- STAGES OF THE EVALUATOR CHAIN
-- Proof scaffolding naming the successive accumulation states of
-- expected_stack, in the source order of evaluate.

def stage1 (cs : Nat → Nat) (flags : Nat → Nat) (depth : Nat) : Nat → Nat :=
  mul_acc (fun _ => 0) depth cs (flags opcodes.NOOP)

def stage2 (cs : Nat → Nat) (flags : Nat → Nat) (depth : Nat) : Nat → Nat :=
  op_pull1 (stage1 cs flags depth) depth cs (flags opcodes.PULL1)

def stage3 (cs : Nat → Nat) (flags : Nat → Nat) (depth : Nat) : Nat → Nat :=
  op_pull2 (stage2 cs flags depth) depth cs (flags opcodes.PULL2)

def stage4 (cs : Nat → Nat) (opc : Nat) (flags : Nat → Nat) (depth : Nat) : Nat → Nat :=
  op_push (stage3 cs flags depth) depth cs opc (flags opcodes.PUSH)

def stage5 (cs : Nat → Nat) (opc : Nat) (flags : Nat → Nat) (depth : Nat) : Nat → Nat :=
  op_dup0 (stage4 cs opc flags depth) depth cs (flags opcodes.DUP0)

def stage6 (cs : Nat → Nat) (opc : Nat) (flags : Nat → Nat) (depth : Nat) : Nat → Nat :=
  op_dup1 (stage5 cs opc flags depth) depth cs (flags opcodes.DUP1)

def stage7 (cs : Nat → Nat) (opc : Nat) (flags : Nat → Nat) (depth : Nat) : Nat → Nat :=
  op_drop (stage6 cs opc flags depth) depth cs (flags opcodes.DROP)

def stage8 (cs : Nat → Nat) (opc : Nat) (flags : Nat → Nat) (depth : Nat) : Nat → Nat :=
  op_add (stage7 cs opc flags depth) depth cs (flags opcodes.ADD)

def stage9 (cs : Nat → Nat) (opc : Nat) (flags : Nat → Nat) (depth : Nat) : Nat → Nat :=
  op_sub (stage8 cs opc flags depth) depth cs (flags opcodes.SUB)

def stage10 (cs : Nat → Nat) (opc : Nat) (flags : Nat → Nat) (depth : Nat) : Nat → Nat :=
  op_mul (stage9 cs opc flags depth) depth cs (flags opcodes.MUL)

theorem expected_stack_eq_stage10 (current next : TraceState) (flags : Nat → Nat)
    (tableLen : Nat) :
    expected_stack current next flags tableLen
      = stage10 current.stack next.opCode flags (max tableLen MIN_STACK_DEPTH) := rfl

-- BOUND LEMMAS: every accumulated value stays below p.

theorem mul_acc_bound (e : Nat → Nat) (nlen : Nat) (cs : Nat → Nat) (flag : Nat)
    (he : ∀ j, e j < p) : ∀ j, mul_acc e nlen cs flag j < p := by
  intro j
  unfold mul_acc
  split_ifs
  · exact fadd_lt _ _
  · exact he j

theorem op_pull1_bound (e : Nat → Nat) (nlen : Nat) (cs : Nat → Nat) (flag : Nat)
    (he : ∀ j, e j < p) : ∀ j, op_pull1 e nlen cs flag j < p := by
  intro j
  unfold op_pull1
  split_ifs <;> first | exact fadd_lt _ _ | exact he j

theorem op_pull2_bound (e : Nat → Nat) (nlen : Nat) (cs : Nat → Nat) (flag : Nat)
    (he : ∀ j, e j < p) : ∀ j, op_pull2 e nlen cs flag j < p := by
  intro j
  unfold op_pull2
  split_ifs <;> first | exact fadd_lt _ _ | exact he j

theorem op_push_bound (e : Nat → Nat) (nlen : Nat) (cs : Nat → Nat) (opc flag : Nat)
    (he : ∀ j, e j < p) : ∀ j, op_push e nlen cs opc flag j < p := by
  intro j
  unfold op_push
  split_ifs <;> first | exact fadd_lt _ _ | exact he j

theorem op_dup0_bound (e : Nat → Nat) (nlen : Nat) (cs : Nat → Nat) (flag : Nat)
    (he : ∀ j, e j < p) : ∀ j, op_dup0 e nlen cs flag j < p := by
  intro j
  unfold op_dup0
  split_ifs <;> first | exact fadd_lt _ _ | exact he j

theorem op_dup1_bound (e : Nat → Nat) (nlen : Nat) (cs : Nat → Nat) (flag : Nat)
    (he : ∀ j, e j < p) : ∀ j, op_dup1 e nlen cs flag j < p := by
  intro j
  unfold op_dup1
  split_ifs <;> first | exact fadd_lt _ _ | exact he j

theorem op_drop_bound (e : Nat → Nat) (nlen : Nat) (cs : Nat → Nat) (flag : Nat)
    (he : ∀ j, e j < p) : ∀ j, op_drop e nlen cs flag j < p := by
  intro j
  unfold op_drop
  split_ifs <;> first | exact fadd_lt _ _ | exact he j

theorem op_add_bound (e : Nat → Nat) (nlen : Nat) (cs : Nat → Nat) (flag : Nat)
    (he : ∀ j, e j < p) : ∀ j, op_add e nlen cs flag j < p := by
  intro j
  unfold op_add
  split_ifs <;> first | exact fadd_lt _ _ | exact he j

theorem op_sub_bound (e : Nat → Nat) (nlen : Nat) (cs : Nat → Nat) (flag : Nat)
    (he : ∀ j, e j < p) : ∀ j, op_sub e nlen cs flag j < p := by
  intro j
  unfold op_sub
  split_ifs <;> first | exact fadd_lt _ _ | exact he j

theorem op_mul_bound (e : Nat → Nat) (nlen : Nat) (cs : Nat → Nat) (flag : Nat)
    (he : ∀ j, e j < p) : ∀ j, op_mul e nlen cs flag j < p := by
  intro j
  unfold op_mul
  split_ifs <;> first | exact fadd_lt _ _ | exact he j

theorem stage1_bound (cs : Nat → Nat) (flags : Nat → Nat) (depth : Nat) :
    ∀ j, stage1 cs flags depth j < p :=
  mul_acc_bound _ _ _ _ (fun _ => p_pos)

theorem stage2_bound (cs : Nat → Nat) (flags : Nat → Nat) (depth : Nat) :
    ∀ j, stage2 cs flags depth j < p :=
  op_pull1_bound _ _ _ _ (stage1_bound cs flags depth)

theorem stage3_bound (cs : Nat → Nat) (flags : Nat → Nat) (depth : Nat) :
    ∀ j, stage3 cs flags depth j < p :=
  op_pull2_bound _ _ _ _ (stage2_bound cs flags depth)

theorem stage4_bound (cs : Nat → Nat) (opc : Nat) (flags : Nat → Nat) (depth : Nat) :
    ∀ j, stage4 cs opc flags depth j < p :=
  op_push_bound _ _ _ _ _ (stage3_bound cs flags depth)

theorem stage5_bound (cs : Nat → Nat) (opc : Nat) (flags : Nat → Nat) (depth : Nat) :
    ∀ j, stage5 cs opc flags depth j < p :=
  op_dup0_bound _ _ _ _ (stage4_bound cs opc flags depth)

theorem stage6_bound (cs : Nat → Nat) (opc : Nat) (flags : Nat → Nat) (depth : Nat) :
    ∀ j, stage6 cs opc flags depth j < p :=
  op_dup1_bound _ _ _ _ (stage5_bound cs opc flags depth)

theorem stage7_bound (cs : Nat → Nat) (opc : Nat) (flags : Nat → Nat) (depth : Nat) :
    ∀ j, stage7 cs opc flags depth j < p :=
  op_drop_bound _ _ _ _ (stage6_bound cs opc flags depth)

theorem stage8_bound (cs : Nat → Nat) (opc : Nat) (flags : Nat → Nat) (depth : Nat) :
    ∀ j, stage8 cs opc flags depth j < p :=
  op_add_bound _ _ _ _ (stage7_bound cs opc flags depth)

theorem stage9_bound (cs : Nat → Nat) (opc : Nat) (flags : Nat → Nat) (depth : Nat) :
    ∀ j, stage9 cs opc flags depth j < p :=
  op_sub_bound _ _ _ _ (stage8_bound cs opc flags depth)

-- STEP LEMMAS: each stage adds the flag-weighted effect of its opcode.

theorem stage1_step (cs : Nat → Nat) (flags : Nat → Nat) (depth i : Nat) :
    stage1 cs flags depth i
      = fadd 0 (fmul (eff_noop cs depth i) (flags opcodes.NOOP)) := by
  unfold stage1 mul_acc eff_noop
  split_ifs
  · rfl
  · rw [fmul_zero_left]
    simp [fadd]

theorem stage2_step (cs : Nat → Nat) (flags : Nat → Nat) (depth i : Nat) :
    stage2 cs flags depth i
      = fadd (stage1 cs flags depth i)
          (fmul (eff_pull1 cs depth i) (flags opcodes.PULL1)) := by
  have he := stage1_bound cs flags depth i
  unfold stage2 op_pull1 eff_pull1
  split_ifs with h1 h2 h3
  · subst h1; rfl
  · subst h2; rfl
  · rfl
  · rw [fmul_zero_left, fadd_zero_right he]

theorem stage3_step (cs : Nat → Nat) (flags : Nat → Nat) (depth i : Nat) :
    stage3 cs flags depth i
      = fadd (stage2 cs flags depth i)
          (fmul (eff_pull2 cs depth i) (flags opcodes.PULL2)) := by
  have he := stage2_bound cs flags depth i
  unfold stage3 op_pull2 eff_pull2
  split_ifs with h1 h2 h3 h4
  · subst h1; rfl
  · subst h2; rfl
  · subst h3; rfl
  · rfl
  · rw [fmul_zero_left, fadd_zero_right he]

theorem stage4_step (cs : Nat → Nat) (opc : Nat) (flags : Nat → Nat) (depth i : Nat) :
    stage4 cs opc flags depth i
      = fadd (stage3 cs flags depth i)
          (fmul (eff_push cs opc depth i) (flags opcodes.PUSH)) := by
  have he := stage3_bound cs flags depth i
  unfold stage4 op_push eff_push
  split_ifs with h1 h2
  · subst h1; rfl
  · rfl
  · rw [fmul_zero_left, fadd_zero_right he]

theorem stage5_step (cs : Nat → Nat) (opc : Nat) (flags : Nat → Nat) (depth i : Nat) :
    stage5 cs opc flags depth i
      = fadd (stage4 cs opc flags depth i)
          (fmul (eff_dup0 cs depth i) (flags opcodes.DUP0)) := by
  have he := stage4_bound cs opc flags depth i
  unfold stage5 op_dup0 eff_dup0
  split_ifs with h1 h2
  · subst h1; rfl
  · rfl
  · rw [fmul_zero_left, fadd_zero_right he]

theorem stage6_step (cs : Nat → Nat) (opc : Nat) (flags : Nat → Nat) (depth i : Nat) :
    stage6 cs opc flags depth i
      = fadd (stage5 cs opc flags depth i)
          (fmul (eff_dup1 cs depth i) (flags opcodes.DUP1)) := by
  have he := stage5_bound cs opc flags depth i
  unfold stage6 op_dup1 eff_dup1
  split_ifs with h1 h2
  · subst h1; rfl
  · rfl
  · rw [fmul_zero_left, fadd_zero_right he]

theorem stage7_step (cs : Nat → Nat) (opc : Nat) (flags : Nat → Nat) (depth i : Nat) :
    stage7 cs opc flags depth i
      = fadd (stage6 cs opc flags depth i)
          (fmul (eff_drop cs depth i) (flags opcodes.DROP)) := by
  have he := stage6_bound cs opc flags depth i
  unfold stage7 op_drop eff_drop
  split_ifs with h1
  · rfl
  · rw [fmul_zero_left, fadd_zero_right he]

theorem stage8_step (cs : Nat → Nat) (opc : Nat) (flags : Nat → Nat) (depth i : Nat) :
    stage8 cs opc flags depth i
      = fadd (stage7 cs opc flags depth i)
          (fmul (eff_add cs depth i) (flags opcodes.ADD)) := by
  have he := stage7_bound cs opc flags depth i
  unfold stage8 op_add eff_add
  split_ifs with h1 h2
  · subst h1; rfl
  · rfl
  · rw [fmul_zero_left, fadd_zero_right he]

theorem stage9_step (cs : Nat → Nat) (opc : Nat) (flags : Nat → Nat) (depth i : Nat) :
    stage9 cs opc flags depth i
      = fadd (stage8 cs opc flags depth i)
          (fmul (eff_sub cs depth i) (flags opcodes.SUB)) := by
  have he := stage8_bound cs opc flags depth i
  unfold stage9 op_sub eff_sub
  split_ifs with h1 h2
  · subst h1; rfl
  · rfl
  · rw [fmul_zero_left, fadd_zero_right he]

theorem stage10_step (cs : Nat → Nat) (opc : Nat) (flags : Nat → Nat) (depth i : Nat) :
    stage10 cs opc flags depth i
      = fadd (stage9 cs opc flags depth i)
          (fmul (eff_mul cs depth i) (flags opcodes.MUL)) := by
  have he := stage9_bound cs opc flags depth i
  unfold stage10 op_mul eff_mul
  split_ifs with h1 h2
  · subst h1; rfl
  · rfl
  · rw [fmul_zero_left, fadd_zero_right he]

/-- The sequential accumulation performed by evaluate computes exactly the
linear combination of op_flag-weighted opcode effects. -/
theorem expected_stack_eq_lin_comb (current next : TraceState) (flags : Nat → Nat)
    (tableLen i : Nat) :
    expected_stack current next flags tableLen i
      = expected_lin_comb current next flags tableLen i := by
  rw [expected_stack_eq_stage10, stage10_step, stage9_step, stage8_step, stage7_step,
    stage6_step, stage5_step, stage4_step, stage3_step, stage2_step, stage1_step]
  rfl

/-- Closed form of the expected stack when only the DROP flag is set. -/
theorem expected_drop_closed (current next : TraceState) (tableLen : Nat)
    (hcs : ∀ j, current.stack j < p) (i : Nat) :
    expected_stack current next (singleFlag opcodes.DROP) tableLen i
      = if i < max tableLen MIN_STACK_DEPTH - 1 then current.stack (i + 1) else 0 := by
  rw [expected_stack_eq_stage10, stage10_step, stage9_step, stage8_step, stage7_step,
    stage6_step, stage5_step, stage4_step, stage3_step, stage2_step, stage1_step]
  simp only [show singleFlag opcodes.DROP opcodes.NOOP = 0 from rfl,
    show singleFlag opcodes.DROP opcodes.PULL1 = 0 from rfl,
    show singleFlag opcodes.DROP opcodes.PULL2 = 0 from rfl,
    show singleFlag opcodes.DROP opcodes.PUSH = 0 from rfl,
    show singleFlag opcodes.DROP opcodes.DUP0 = 0 from rfl,
    show singleFlag opcodes.DROP opcodes.DUP1 = 0 from rfl,
    show singleFlag opcodes.DROP opcodes.DROP = 1 from rfl,
    show singleFlag opcodes.DROP opcodes.ADD = 0 from rfl,
    show singleFlag opcodes.DROP opcodes.SUB = 0 from rfl,
    show singleFlag opcodes.DROP opcodes.MUL = 0 from rfl]
  have h00 : fadd 0 0 = 0 := by simp [fadd]
  simp only [fmul_zero_right, fmul_one_right, h00]
  rw [fadd_zero_left, Nat.mod_mod_of_dvd _ dvd_rfl]
  have hlt : eff_drop current.stack (max tableLen MIN_STACK_DEPTH) i % p < p :=
    Nat.mod_lt _ p_pos
  simp only [fadd_zero_right hlt]
  unfold eff_drop
  split_ifs with h
  · exact Nat.mod_eq_of_lt (hcs _)
  · exact Nat.zero_mod p

/-- Closed form of the expected stack when only the PUSH flag is set: the
top slot takes the op_code of the next row, the deeper slots take the
current stack shifted down by one. -/
theorem expected_push_closed (current next : TraceState) (tableLen : Nat)
    (hcs : ∀ j, current.stack j < p) (hop : next.opCode < p) (i : Nat) :
    expected_stack current next (singleFlag opcodes.PUSH) tableLen i
      = if i = 0 then next.opCode
        else if i < max tableLen MIN_STACK_DEPTH then current.stack (i - 1)
        else 0 := by
  rw [expected_stack_eq_stage10, stage10_step, stage9_step, stage8_step, stage7_step,
    stage6_step, stage5_step, stage4_step, stage3_step, stage2_step, stage1_step]
  simp only [show singleFlag opcodes.PUSH opcodes.NOOP = 0 from rfl,
    show singleFlag opcodes.PUSH opcodes.PULL1 = 0 from rfl,
    show singleFlag opcodes.PUSH opcodes.PULL2 = 0 from rfl,
    show singleFlag opcodes.PUSH opcodes.PUSH = 1 from rfl,
    show singleFlag opcodes.PUSH opcodes.DUP0 = 0 from rfl,
    show singleFlag opcodes.PUSH opcodes.DUP1 = 0 from rfl,
    show singleFlag opcodes.PUSH opcodes.DROP = 0 from rfl,
    show singleFlag opcodes.PUSH opcodes.ADD = 0 from rfl,
    show singleFlag opcodes.PUSH opcodes.SUB = 0 from rfl,
    show singleFlag opcodes.PUSH opcodes.MUL = 0 from rfl]
  have h00 : fadd 0 0 = 0 := by simp [fadd]
  simp only [fmul_zero_right, fmul_one_right, h00]
  rw [fadd_zero_left, Nat.mod_mod_of_dvd _ dvd_rfl]
  have hlt : eff_push current.stack next.opCode (max tableLen MIN_STACK_DEPTH) i % p < p :=
    Nat.mod_lt _ p_pos
  simp only [fadd_zero_right hlt]
  unfold eff_push
  split_ifs with h1 h2
  · exact Nat.mod_eq_of_lt hop
  · exact Nat.mod_eq_of_lt (hcs _)
  · exact Nat.zero_mod p

-- CONCRETE PROGRAMS OF THE TESTS (tests/mod.rs)

/-- The Fibonacci program of execute_verify: three rounds of
Swap, Dup2, Drop, Add followed by three Noop. -/
def fibProgram : Program :=
  ⟨[.swap, .dup2, .drop, .add,
    .swap, .dup2, .drop, .add,
    .swap, .dup2, .drop, .add,
    .noop, .noop, .noop]⟩

/-- The inputs of execute_verify: public inputs [1, 0], no secret tapes. -/
def fibInputs : ProgramInputs := ⟨[1, 0], [], []⟩

/-- The proof object produced by executing the Fibonacci program with the
identity round function. -/
def fibProof : StarkProof :=
  { programHash := hashBytes id fibProgram, publicInputs := [1, 0], outputs := [3] }

/-- The program of read_operations: Read, Read2, Noop, Push(5) and eleven
Noop. -/
def readProgram : Program :=
  ⟨[.read, .read2, .noop, .push 5,
    .noop, .noop, .noop, .noop,
    .noop, .noop, .noop, .noop,
    .noop, .noop, .noop]⟩

/-- The proof object produced by executing the read program on the input
assignment described by the claim, with the identity round function. -/
def readProofA : StarkProof :=
  { programHash := hashBytes id readProgram, publicInputs := [], outputs := [5, 2, 4, 1, 0] }

/-- The single-hash program of hash_operations: ten RescR, four Drop, one
Noop. -/
def hashProgram : Program :=
  ⟨[.rescr, .rescr, .rescr, .rescr,
    .rescr, .rescr, .rescr, .rescr,
    .rescr, .rescr, .drop, .drop,
    .drop, .drop, .noop]⟩

-- RUN LEMMAS FOR THE HASH PROGRAM

/-- The stack image of a sponge state: capacity lanes on top, rate lanes
below in reverse order. -/
def fromState (s : RescueState) : List Nat :=
  [s.c0, s.c1, s.r3, s.r2, s.r1, s.r0]

theorem step_rescr (round : RescueState → RescueState) (s : RescueState)
    (ta tb : List Nat) :
    step round ⟨fromState s, ta, tb⟩ Op.rescr
      = Except.ok ⟨fromState (round s), ta, tb⟩ := rfl

theorem step_drop_state (round : RescueState → RescueState) (s : RescueState)
    (ta tb : List Nat) :
    step round ⟨fromState s, ta, tb⟩ Op.drop
      = Except.ok ⟨[s.c1, s.r3, s.r2, s.r1, s.r0], ta, tb⟩ := rfl

theorem step_drop_cons (round : RescueState → RescueState) (x : Nat)
    (rest ta tb : List Nat) :
    step round ⟨x :: rest, ta, tb⟩ Op.drop = Except.ok ⟨rest, ta, tb⟩ := rfl

theorem step_noop (round : RescueState → RescueState) (st : MachState) :
    step round st Op.noop = Except.ok st := rfl

theorem run_nil (round : RescueState → RescueState) (st : MachState) :
    run round [] st = Except.ok st := rfl

theorem run_cons_ok {round : RescueState → RescueState} {st st2 : MachState}
    {op : Op} {ops : List Op} (h : step round st op = Except.ok st2) :
    run round (op :: ops) st = run round ops st2 := by
  unfold run
  rw [show (op :: ops).foldlM (step round) st
      = step round st op >>= fun s2 => ops.foldlM (step round) s2 from rfl, h]
  rfl

/-- A successful processor run determines the result of execute: the
outputs are the top num_outputs zero-extended stack slots of the final
state and the proof commits to the program hash, the public inputs and
the outputs. -/
theorem execute_of_run (round : RescueState → RescueState) (P : Program)
    (I : ProgramInputs) (n : Nat) (opts : ProofOptions) (final : MachState)
    (hn : ¬ n > MAX_OUTPUTS)
    (h : run round P.ops (MachState.mk I.publicInputs I.secretA I.secretB)
      = Except.ok final) :
    execute round P I n opts
      = Except.ok ((List.range n).map (fun i => final.stack.getD i 0),
          StarkProof.mk (hashBytes round P) I.publicInputs
            ((List.range n).map (fun i => final.stack.getD i 0))) := by
  unfold execute
  rw [if_neg hn, h]

-- CLAIM THEOREMS

/-- Claim C1: round-trip soundness.  For every round function, program,
inputs and num_outputs at most 8, when execute succeeds, verifying the
program hash against the public inputs, the returned outputs and the
returned proof yields Ok(true). -/
theorem claim1_roundtrip (round : RescueState → RescueState) (P : Program)
    (I : ProgramInputs) (n : Nat) (opts : ProofOptions) (outs : List Nat)
    (pf : StarkProof) (hn : n ≤ MAX_OUTPUTS)
    (hex : execute round P I n opts = Except.ok (outs, pf)) :
    verify (hashBytes round P) I.publicInputs outs pf = Except.ok true := by
  unfold execute at hex
  rw [if_neg (by omega)] at hex
  cases hrun : run round P.ops
      { stack := I.publicInputs, tapeA := I.secretA, tapeB := I.secretB } with
  | error e =>
    rw [hrun] at hex
    cases hex
  | ok final =>
    rw [hrun] at hex
    simp only [Except.ok.injEq, Prod.mk.injEq] at hex
    obtain ⟨h1, h2⟩ := hex
    subst h1
    subst h2
    unfold verify
    rw [if_pos ⟨rfl, rfl⟩, if_pos rfl]

/-- Witness for C1 at the Fibonacci test instance. -/
theorem claim1_witness :
    (1 : Nat) ≤ MAX_OUTPUTS ∧
    verify (hashBytes id fibProgram) [1, 0] [3] fibProof = Except.ok true :=
  ⟨by decide,
   claim1_roundtrip id fibProgram fibInputs 1 defaultOptions [3] fibProof (by decide) rfl⟩

/-- Claim C2: input sensitivity.  For a proof produced by execute,
altering any public input element or any output element makes verify
return the canonical low-degree error message (the mismatch surfaces at
FRI layer 0), and altering any byte of the program hash makes verify
return the canonical execution-path error message; in every case verify
returns an error value rather than failing. -/
theorem claim2_input_sensitivity (round : RescueState → RescueState) (P : Program)
    (I : ProgramInputs) (n : Nat) (opts : ProofOptions) (outs : List Nat)
    (pf : StarkProof)
    (hex : execute round P I n opts = Except.ok (outs, pf)) :
    (∀ k v, k < I.publicInputs.length → v ≠ I.publicInputs.getD k 0 →
      verify (hashBytes round P) (I.publicInputs.set k v) outs pf
        = Except.error "verification of low-degree proof failed: evaluations did not match column value at depth 0")
    ∧ (∀ k v, k < outs.length → v ≠ outs.getD k 0 →
      verify (hashBytes round P) I.publicInputs (outs.set k v) pf
        = Except.error "verification of low-degree proof failed: evaluations did not match column value at depth 0")
    ∧ (∀ k b, k < 32 → b ≠ (hashBytes round P).getD k 0 →
      verify ((hashBytes round P).set k b) I.publicInputs outs pf
        = Except.error "verification of program execution path failed") := by
  unfold execute at hex
  rcases Nat.lt_or_ge MAX_OUTPUTS n with hgt | hle
  · rw [if_pos hgt] at hex
    cases hex
  · rw [if_neg (by omega)] at hex
    cases hrun : run round P.ops
        { stack := I.publicInputs, tapeA := I.secretA, tapeB := I.secretB } with
    | error e =>
      rw [hrun] at hex
      cases hex
    | ok final =>
      rw [hrun] at hex
      simp only [Except.ok.injEq, Prod.mk.injEq] at hex
      obtain ⟨h1, h2⟩ := hex
      subst h1
      subst h2
      refine ⟨?_, ?_, ?_⟩
      · intro k v hk hv
        unfold verify
        rw [if_neg]
        intro hcond
        exact set_ne_of_ne I.publicInputs k v hk hv hcond.1.symm
      · intro k v hk hv
        unfold verify
        rw [if_neg]
        intro hcond
        exact set_ne_of_ne _ k v hk hv hcond.2.symm
      · intro k b hk hb
        unfold verify
        rw [if_pos ⟨rfl, rfl⟩, if_neg]
        intro hcond
        refine set_ne_of_ne (hashBytes round P) k b ?_ hb hcond.symm
        rw [hashBytes_length]
        exact hk

/-- Witness for C2 at the Fibonacci test instance: perturbed public input,
perturbed output, perturbed hash byte. -/
theorem claim2_witness :
    verify (hashBytes id fibProgram) [1, 1] [3] fibProof
      = Except.error "verification of low-degree proof failed: evaluations did not match column value at depth 0"
    ∧ verify (hashBytes id fibProgram) [1, 0] [5] fibProof
      = Except.error "verification of low-degree proof failed: evaluations did not match column value at depth 0"
    ∧ verify ((hashBytes id fibProgram).set 0 1) [1, 0] [3] fibProof
      = Except.error "verification of program execution path failed" :=
  ⟨(claim2_input_sensitivity id fibProgram fibInputs 1 defaultOptions [3] fibProof rfl).1
      1 1 (by decide) (by decide),
   (claim2_input_sensitivity id fibProgram fibInputs 1 defaultOptions [3] fibProof rfl).2.1
      0 5 (by decide) (by decide),
   (claim2_input_sensitivity id fibProgram fibInputs 1 defaultOptions [3] fibProof rfl).2.2
      0 1 (by decide) (by decide)⟩

/-- Claim C3: execute fails fatally whenever num_outputs exceeds
MAX_OUTPUTS = 8, for every round function, program, inputs and options,
and produces no proof in that case. -/
theorem claim3_num_outputs_guard (round : RescueState → RescueState) (P : Program)
    (I : ProgramInputs) (n : Nat) (opts : ProofOptions) (h : MAX_OUTPUTS < n) :
    execute round P I n opts
      = Except.error ("cannot produce more than " ++ toString MAX_OUTPUTS ++
          " outputs, but requested " ++ toString n) := by
  unfold execute
  rw [if_pos h]

/-- Witness for C3 at num_outputs = 9. -/
theorem claim3_witness :
    MAX_OUTPUTS < 9 ∧
    execute id fibProgram fibInputs 9 defaultOptions
      = Except.error ("cannot produce more than " ++ toString MAX_OUTPUTS ++
          " outputs, but requested " ++ toString 9) :=
  ⟨by decide, claim3_num_outputs_guard id fibProgram fibInputs 9 defaultOptions (by decide)⟩

/-- Claim C5: the Fibonacci program on public inputs [1, 0] with one
output returns [3], for every round function. -/
theorem claim5_fibonacci (round : RescueState → RescueState) :
    ∃ pf, execute round fibProgram fibInputs 1 defaultOptions
      = Except.ok ([3], pf) :=
  ⟨_, rfl⟩

/-- Counterexample for C6: under the input assignment stated by the claim -
public inputs empty, tape a holding [1] plus the remainder [4], tape b
holding [2, 3] - the read program returns [5, 2, 4, 1, 0], not
[5, 4, 3, 2, 1]. -/
theorem claim6_counterexample :
    (∃ pf, execute id readProgram ⟨[], [1, 4], [2, 3]⟩ 5 defaultOptions
        = Except.ok ([5, 2, 4, 1, 0], pf))
    ∧ ¬ (∃ pf, execute id readProgram ⟨[], [1, 4], [2, 3]⟩ 5 defaultOptions
        = Except.ok ([5, 4, 3, 2, 1], pf)) := by
  constructor
  · exact ⟨readProofA, rfl⟩
  · rintro ⟨pf, h⟩
    have hcomp : execute id readProgram ⟨[], [1, 4], [2, 3]⟩ 5 defaultOptions
        = Except.ok ([5, 2, 4, 1, 0], readProofA) := rfl
    rw [hcomp] at h
    simp at h

/-- Claim C6 as amended: with the argument order of ProgramInputs::new -
public inputs [1], secret tape a = [2, 3], secret tape b = [4] - the read
program returns [5, 4, 3, 2, 1], for every round function. -/
theorem claim6_amended (round : RescueState → RescueState) :
    ∃ pf, execute round readProgram ⟨[1], [2, 3], [4]⟩ 5 defaultOptions
      = Except.ok ([5, 4, 3, 2, 1], pf) :=
  ⟨_, rfl⟩

/-- Claim C7: hash equivalence.  For every round function, executing the
RESCR-based program on public inputs [0, 0, 4, 3, 2, 1] with two outputs
returns exactly the reversal of the direct hasher digest of [1, 2, 3, 4]. -/
theorem claim7_hash_equivalence (round : RescueState → RescueState) :
    ∃ pf, execute round hashProgram ⟨[0, 0, 4, 3, 2, 1], [], []⟩ 2 defaultOptions
      = Except.ok ((digest round [1, 2, 3, 4]).reverse, pf) := by
  have hrun : run round hashProgram.ops (MachState.mk [0, 0, 4, 3, 2, 1] [] [])
      = Except.ok (MachState.mk
          [(permute round (RescueState.mk 1 2 3 4 0 0)).r1,
            (permute round (RescueState.mk 1 2 3 4 0 0)).r0] [] []) := by
    rw [show (MachState.mk ([0, 0, 4, 3, 2, 1] : List Nat) [] [])
        = MachState.mk (fromState (RescueState.mk 1 2 3 4 0 0)) [] [] from rfl]
    rw [show hashProgram.ops
        = [Op.rescr, Op.rescr, Op.rescr, Op.rescr, Op.rescr, Op.rescr, Op.rescr,
          Op.rescr, Op.rescr, Op.rescr, Op.drop, Op.drop, Op.drop, Op.drop, Op.noop]
        from rfl]
    rw [run_cons_ok (step_rescr round _ _ _), run_cons_ok (step_rescr round _ _ _),
      run_cons_ok (step_rescr round _ _ _), run_cons_ok (step_rescr round _ _ _),
      run_cons_ok (step_rescr round _ _ _), run_cons_ok (step_rescr round _ _ _),
      run_cons_ok (step_rescr round _ _ _), run_cons_ok (step_rescr round _ _ _),
      run_cons_ok (step_rescr round _ _ _), run_cons_ok (step_rescr round _ _ _),
      run_cons_ok (step_drop_state round _ _ _), run_cons_ok (step_drop_cons round _ _ _ _),
      run_cons_ok (step_drop_cons round _ _ _ _), run_cons_ok (step_drop_cons round _ _ _ _),
      run_cons_ok (step_noop round _), run_nil]
    rfl
  exact ⟨_, execute_of_run round hashProgram ⟨[0, 0, 4, 3, 2, 1], [], []⟩ 2
    defaultOptions _ (by decide) hrun⟩

/-- Claim C9: determinism.  Two calls of execute with identical arguments
are equal, and whenever both are observed to succeed the outputs and the
proofs coincide. -/
theorem claim9_determinism (round : RescueState → RescueState) (P : Program)
    (I : ProgramInputs) (n : Nat) (opts : ProofOptions) :
    execute round P I n opts = execute round P I n opts ∧
    ∀ outs1 pf1 outs2 pf2,
      execute round P I n opts = Except.ok (outs1, pf1) →
      execute round P I n opts = Except.ok (outs2, pf2) →
      outs1 = outs2 ∧ pf1 = pf2 := by
  refine ⟨rfl, ?_⟩
  intro outs1 pf1 outs2 pf2 h1 h2
  rw [h1] at h2
  simpa using h2

/-- Witness for C9 at the Fibonacci test instance. -/
theorem claim9_witness : ([3] : List Nat) = [3] ∧ fibProof = fibProof :=
  (claim9_determinism id fibProgram fibInputs 1 defaultOptions).2
    [3] fibProof [3] fibProof rfl rfl

-- CONCRETE TRACE ROWS FOR THE CONSTRAINT WITNESSES

theorem five_lt_p : (5 : Nat) < p := by decide

/-- A concrete current trace row for witnesses. -/
def traceCur : TraceState := ⟨fun _ => 5, 2⟩

/-- A concrete next trace row for witnesses. -/
def traceNext : TraceState := ⟨fun _ => 7, 3⟩

/-- Claim C4: the evaluator records, for each tracked stack register, the
residual of the next stack value against the expected value, where the
expected value is the linear combination of op_flag-weighted opcode
effects; the residual is zero exactly when the next value agrees with the
expected value in the field. -/
theorem claim4_transition_residual (current next : TraceState)
    (op_flags : Nat → Nat) (tableLen i : Nat) (h : i < tableLen) :
    (evaluate current next op_flags tableLen).getD i 0
      = fsub (next.stack i) (expected_lin_comb current next op_flags tableLen i)
    ∧ ((evaluate current next op_flags tableLen).getD i 0 = 0
        ↔ next.stack i ≡ expected_lin_comb current next op_flags tableLen i [MOD p]) := by
  have h1 : (evaluate current next op_flags tableLen).getD i 0
      = fsub (next.stack i) (expected_stack current next op_flags tableLen i) := by
    unfold evaluate
    exact range_map_getD _ _ _ h
  rw [expected_stack_eq_lin_comb] at h1
  refine ⟨h1, ?_⟩
  rw [h1]
  exact fsub_eq_zero_iff _ _

/-- Witness for C4 at a concrete trace row and the ADD flag. -/
theorem claim4_witness :
    (0 : Nat) < 8 ∧
    ((evaluate traceCur traceNext (singleFlag opcodes.ADD) 8).getD 0 0
        = fsub (traceNext.stack 0)
            (expected_lin_comb traceCur traceNext (singleFlag opcodes.ADD) 8 0)
      ∧ ((evaluate traceCur traceNext (singleFlag opcodes.ADD) 8).getD 0 0 = 0
          ↔ traceNext.stack 0
              ≡ expected_lin_comb traceCur traceNext (singleFlag opcodes.ADD) 8 0 [MOD p])) :=
  ⟨by decide,
   claim4_transition_residual traceCur traceNext (singleFlag opcodes.ADD) 8 0 (by decide)⟩

/-- Claim C8: with only the DROP flag active, the expected stack is the
current stack shifted up by one on every index below the last tracked
slot - so the constraint enforces next[i] = current[i+1] there - and the
expected value of the last tracked slot is 0, left-extending the stack
with zeros. -/
theorem claim8_drop_left_extends (current next : TraceState) (tableLen : Nat)
    (hcs : ∀ j, current.stack j < p) :
    (∀ i, i < max tableLen MIN_STACK_DEPTH - 1 →
      expected_stack current next (singleFlag opcodes.DROP) tableLen i
        = current.stack (i + 1))
    ∧ expected_stack current next (singleFlag opcodes.DROP) tableLen
        (max tableLen MIN_STACK_DEPTH - 1) = 0
    ∧ (∀ i, i < tableLen → i < max tableLen MIN_STACK_DEPTH - 1 →
      ((evaluate current next (singleFlag opcodes.DROP) tableLen).getD i 0 = 0
        ↔ next.stack i ≡ current.stack (i + 1) [MOD p])) := by
  refine ⟨?_, ?_, ?_⟩
  · intro i hi
    rw [expected_drop_closed current next tableLen hcs i, if_pos hi]
  · rw [expected_drop_closed current next tableLen hcs _, if_neg (by omega)]
  · intro i hi1 hi2
    have h1 : (evaluate current next (singleFlag opcodes.DROP) tableLen).getD i 0
        = fsub (next.stack i)
            (expected_stack current next (singleFlag opcodes.DROP) tableLen i) := by
      unfold evaluate
      exact range_map_getD _ _ _ hi1
    rw [h1, expected_drop_closed current next tableLen hcs i, if_pos hi2]
    exact fsub_eq_zero_iff _ _

/-- Witness for C8 at a concrete trace row. -/
theorem claim8_witness :
    expected_stack traceCur traceNext (singleFlag opcodes.DROP) 8 0 = traceCur.stack 1
    ∧ expected_stack traceCur traceNext (singleFlag opcodes.DROP) 8 7 = 0 :=
  ⟨(claim8_drop_left_extends traceCur traceNext 8 (fun _ => five_lt_p)).1 0 (by decide),
   (claim8_drop_left_extends traceCur traceNext 8 (fun _ => five_lt_p)).2.1⟩

/-- Claim C10: with only the PUSH flag active, the expected value of the
top slot is the op_code register of the NEXT trace row - the pushed
immediate is injected through the op-code column of the following step -
the deeper slots take the current stack shifted down by one, and the
expected stack does not depend on the op_code of the current row. -/
theorem claim10_push_from_next_row (current next : TraceState) (tableLen : Nat)
    (hcs : ∀ j, current.stack j < p) (hop : next.opCode < p) :
    expected_stack current next (singleFlag opcodes.PUSH) tableLen 0 = next.opCode
    ∧ (∀ i, 1 ≤ i → i < max tableLen MIN_STACK_DEPTH →
      expected_stack current next (singleFlag opcodes.PUSH) tableLen i
        = current.stack (i - 1))
    ∧ (∀ c, expected_stack (TraceState.mk current.stack c) next
          (singleFlag opcodes.PUSH) tableLen
        = expected_stack current next (singleFlag opcodes.PUSH) tableLen) := by
  refine ⟨?_, ?_, ?_⟩
  · rw [expected_push_closed current next tableLen hcs hop 0, if_pos rfl]
  · intro i h1 h2
    rw [expected_push_closed current next tableLen hcs hop i, if_neg (by omega), if_pos h2]
  · intro c
    rfl

/-- Witness for C10 at a concrete trace row. -/
theorem claim10_witness :
    expected_stack traceCur traceNext (singleFlag opcodes.PUSH) 8 0 = traceNext.opCode
    ∧ expected_stack traceCur traceNext (singleFlag opcodes.PUSH) 8 1 = traceCur.stack 0 :=
  ⟨(claim10_push_from_next_row traceCur traceNext 8 (fun _ => five_lt_p) (by decide)).1,
   (claim10_push_from_next_row traceCur traceNext 8 (fun _ => five_lt_p) (by decide)).2.1
      1 (by decide) (by decide)⟩

end Distaff
